import Mathlib

/-!
Verification of the epoch-level training/evaluation loop of `train.py`
(scaling_mlps).  The source is shallowly embedded: machine floats become
rationals, external collaborators (model forward, loss function, accuracy
scorer, optimizer/scheduler internals) are abstract parameters, and the
orchestrator's loop is an explicit fold over the epoch list that records
the checkpoint writes it performs.
-/

namespace ScalingMLPs

/-- Embeds the mixup loss branch of `train` (`train.py` lines 36-49).
The caller has already performed the column slicing of lines 37-39:
`targs` is column 0 (primary labels), `targsPerm` column 1 (permuted
labels) and `weight` the scalar `targs[0, 2]`.  Returns the loss together
with the `targs_perm` value that is subsequently passed to the accuracy
scorer on line 51 (`none` models Python's `None`). -/
def computeLossMixup {Pred Lbl : Type} (mixup : ℚ) (lossFn : Pred → Lbl → ℚ)
    (preds : Pred) (targs targsPerm : Lbl) (weight : ℚ) : ℚ × Option Lbl :=
  if 0 < mixup then
    if weight ≠ -1 then
      (lossFn preds targs * weight + lossFn preds targsPerm * (1 - weight), some targsPerm)
    else
      (lossFn preds targs, none)
  else
    (lossFn preds targs, none)

/-- The observable gradient/optimizer/scheduler actions of the train pass,
in the order `train` performs them (`train.py` lines 27-64). -/
inductive TrainEvent
  | zeroGrad
  | fwd
  | backward
  | clipGrad
  | optStep
  | schedStep
  deriving DecidableEq

/-- Actions performed for one batch of the train loop (`train.py` lines
28-58): zero the gradients, forward pass, backward pass, clip the gradient
norm when `args.clip > 0`, then the optimizer step. -/
def trainBatchEvents (clip : ℚ) : List TrainEvent :=
  [TrainEvent.zeroGrad, TrainEvent.fwd, TrainEvent.backward] ++
    (if 0 < clip then [TrainEvent.clipGrad] else []) ++ [TrainEvent.optStep]

/-- Actions of one full train epoch over `numBatches` batches
(`train.py` lines 27-64): the per-batch actions for every batch, then a
single `scheduler.step()` after the loop (line 64). -/
def trainPassEvents (clip : ℚ) (numBatches : Nat) : List TrainEvent :=
  (List.replicate numBatches (trainBatchEvents clip)).flatten ++ [TrainEvent.schedStep]

theorem count_schedStep_trainBatchEvents (clip : ℚ) :
    (trainBatchEvents clip).count TrainEvent.schedStep = 0 := by
  by_cases h : 0 < clip <;> simp [trainBatchEvents, h]

theorem count_schedStep_join (clip : ℚ) (n : Nat) :
    ((List.replicate n (trainBatchEvents clip)).flatten).count TrainEvent.schedStep = 0 := by
  induction n with
  | zero => rfl
  | succ k ih =>
    simp [List.replicate_succ, List.count_append, ih, count_schedStep_trainBatchEvents]

/-- C7: within one train-mode epoch the learning-rate scheduler is advanced
exactly once, after all per-batch work (never per batch), and the gradient
norm is clipped exactly when the clip threshold is positive, with the clip
happening before the optimizer step. -/
theorem scheduler_once_clip_guard (clip : ℚ) (n : Nat) :
    (trainPassEvents clip n).count TrainEvent.schedStep = 1 ∧
    (trainPassEvents clip n).getLast? = some TrainEvent.schedStep ∧
    (TrainEvent.clipGrad ∈ trainBatchEvents clip ↔ 0 < clip) ∧
    (0 < clip → trainBatchEvents clip =
      [TrainEvent.zeroGrad, TrainEvent.fwd, TrainEvent.backward,
       TrainEvent.clipGrad, TrainEvent.optStep]) := by
  refine ⟨?_, ?_, ?_, ?_⟩
  · simp [trainPassEvents, List.count_append, count_schedStep_join]
  · simp [trainPassEvents, List.getLast?_concat]
  · by_cases h : 0 < clip <;> simp [trainBatchEvents, h]
  · intro h; simp [trainBatchEvents, h]

theorem scheduler_once_clip_guard_witness :
    (trainPassEvents 1 2).count TrainEvent.schedStep = 1 ∧
    trainBatchEvents 1 =
      [TrainEvent.zeroGrad, TrainEvent.fwd, TrainEvent.backward,
       TrainEvent.clipGrad, TrainEvent.optStep] :=
  ⟨(scheduler_once_clip_guard 1 2).1,
   (scheduler_once_clip_guard 1 2).2.2.2 (by norm_num)⟩

/-- Loss function used by the C1 witness instantiation. -/
def lossFnW : Unit → Nat → ℚ := fun _ l => (l : ℚ)

/-- C1: in train mode with positive mixup strength, a batch whose mixing
weight is not -1 yields the blended loss
`w * lossFn preds primary + (1 - w) * lossFn preds secondary`; a batch
whose mixing weight is -1 yields the plain loss and the secondary labels
are dropped (not handed to the accuracy scorer); in particular at `w = 1`
the blended loss equals the plain loss against the primary labels. -/
theorem mixup_loss_blend {Pred Lbl : Type} (mixup : ℚ) (lossFn : Pred → Lbl → ℚ)
    (preds : Pred) (targs targsPerm : Lbl) (w : ℚ) (hm : 0 < mixup) :
    (w ≠ -1 → computeLossMixup mixup lossFn preds targs targsPerm w =
      (w * lossFn preds targs + (1 - w) * lossFn preds targsPerm, some targsPerm)) ∧
    (w = -1 → computeLossMixup mixup lossFn preds targs targsPerm w =
      (lossFn preds targs, none)) ∧
    (computeLossMixup mixup lossFn preds targs targsPerm 1).1 = lossFn preds targs := by
  refine ⟨?_, ?_, ?_⟩
  · intro hw
    simp only [computeLossMixup, if_pos hm, if_pos hw, Prod.mk.injEq]
    exact ⟨by ring, trivial⟩
  · intro hw
    subst hw
    simp [computeLossMixup, if_pos hm]
  · have h1 : (1 : ℚ) ≠ -1 := by norm_num
    simp only [computeLossMixup, if_pos hm, if_pos h1]
    ring

theorem mixup_loss_blend_witness :
    computeLossMixup 1 lossFnW () 3 5 (1/2) =
      ((1 : ℚ)/2 * lossFnW () 3 + (1 - 1/2) * lossFnW () 5, some 5) :=
  (mixup_loss_blend 1 lossFnW () 3 5 (1/2) (by norm_num)).1 (by norm_num)

/-- The configuration fields of `main` that drive the epoch loop and
checkpointing (`train.py`, argparse defaults in `get_parser`). -/
structure Args where
  epochs : Nat
  calculate_stats : Nat
  save_freq : Nat
  save : Bool
  reload : Bool

/-- The mutable orchestrator state observed by the claims: the
best-accuracy record `optimal_acc` (`train.py` line 168) and, as an audit
trail, the periodic checkpoints written on line 184 (epoch index paired
with the `current_compute` annotation of line 174) and the epochs at which
the optimal checkpoint of line 208 was written. -/
structure LoopState where
  optimal_acc : ℚ
  periodicSaves : List (Nat × ℚ)
  optimalSaves : List Nat
  deriving DecidableEq

/-- Orchestrator state at loop entry: `optimal_acc = -1` (line 168) and no
checkpoints written yet. -/
def initState : LoopState := ⟨-1, [], []⟩

/-- `calc_stats = (ep + 1) % args.calculate_stats == 0` (line 172). -/
def calcStats (args : Args) (ep : Nat) : Bool := (ep + 1) % args.calculate_stats == 0

/-- The periodic checkpoint block of `main` (`train.py` lines 183-187):
`if ep % args.save_freq and args.save:` write a snapshot named by the
epoch index and `current_compute = compute_per_epoch * ep` (line 174).
Python truthiness of `ep % args.save_freq` is `ep % args.save_freq ≠ 0`. -/
def periodicSaveStep (args : Args) (computePerEpoch : ℚ) (ep : Nat)
    (s : LoopState) : LoopState :=
  if ep % args.save_freq ≠ 0 ∧ args.save = true then
    { s with periodicSaves := s.periodicSaves ++ [(ep, computePerEpoch * (ep : ℚ))] }
  else s

/-- The stats block of `main` (`train.py` lines 189-211): when
`calc_stats` holds, run the eval pass (its accuracy abstracted as
`testAcc ep`), and on strict improvement over `optimal_acc` update the
record and, when saving is on, write the optimal checkpoint. -/
def statsStep (args : Args) (testAcc : Nat → ℚ) (ep : Nat) (s : LoopState) : LoopState :=
  if calcStats args ep then
    if testAcc ep > s.optimal_acc then
      { s with
        optimal_acc := testAcc ep,
        optimalSaves := s.optimalSaves ++ if args.save then [ep] else [] }
    else s
  else s

/-- One iteration of the epoch loop of `main` (`train.py` lines 171-211),
restricted to its loop-state effects, in source order: the train pass
(whose parameter updates are outside this state), the periodic save block,
then the stats block. -/
def stepEpoch (args : Args) (computePerEpoch : ℚ) (testAcc : Nat → ℚ) (ep : Nat)
    (s : LoopState) : LoopState :=
  statsStep args testAcc ep (periodicSaveStep args computePerEpoch ep s)

/-- `range(start_ep, args.epochs)` (line 171) as a Lean list. -/
def epochRange (start_ep epochs : Nat) : List Nat := List.range' start_ep (epochs - start_ep)

/-- The epoch loop of `main` from a given starting epoch, folding
`stepEpoch` over `range(start_ep, args.epochs)` starting at `initState`. -/
def runEpochs (args : Args) (c : ℚ) (acc : Nat → ℚ) (start_ep : Nat) : LoopState :=
  (epochRange start_ep args.epochs).foldl (fun s ep => stepEpoch args c acc ep s) initState

/-- The epoch loop with no checkpoint reload: `start_ep = 1` (line 144). -/
def mainLoop (args : Args) (c : ℚ) (acc : Nat → ℚ) : LoopState := runEpochs args c acc 1

/-- The reload prologue of `main` (`train.py` lines 144-151).  `ckpt`
models the outcome of `torch.load` plus `load_state_dict` as one atomic
step: `some params` on success, `none` when the file is missing or cannot
be deserialized (the bare `except`).  Returns the resulting model
parameters, the starting epoch, and whether the informational
"training from scratch" message was printed. -/
def reloadStep {P : Type} (reload : Bool) (ckpt : Option P) (freshInit : P) :
    P × Nat × Bool :=
  if reload then
    match ckpt with
    | some params => (params, 1, false)
    | none => (freshInit, 1, true)
  else
    (freshInit, 1, false)

theorem periodicSaveStep_optimal_acc (args : Args) (c : ℚ) (ep : Nat) (s : LoopState) :
    (periodicSaveStep args c ep s).optimal_acc = s.optimal_acc := by
  unfold periodicSaveStep; split <;> rfl

theorem periodicSaveStep_optimalSaves (args : Args) (c : ℚ) (ep : Nat) (s : LoopState) :
    (periodicSaveStep args c ep s).optimalSaves = s.optimalSaves := by
  unfold periodicSaveStep; split <;> rfl

theorem periodicSaveStep_periodicSaves (args : Args) (c : ℚ) (ep : Nat) (s : LoopState) :
    (periodicSaveStep args c ep s).periodicSaves =
      s.periodicSaves ++
        if ep % args.save_freq ≠ 0 ∧ args.save = true
        then [(ep, c * (ep : ℚ))] else [] := by
  unfold periodicSaveStep; split <;> simp

theorem statsStep_optimal_acc (args : Args) (acc : Nat → ℚ) (ep : Nat) (s : LoopState) :
    (statsStep args acc ep s).optimal_acc =
      if calcStats args ep = true ∧ acc ep > s.optimal_acc then acc ep
      else s.optimal_acc := by
  unfold statsStep
  by_cases h2 : calcStats args ep = true <;>
    by_cases h3 : acc ep > s.optimal_acc <;> simp [h2, h3]

theorem statsStep_optimalSaves (args : Args) (acc : Nat → ℚ) (ep : Nat) (s : LoopState) :
    (statsStep args acc ep s).optimalSaves =
      s.optimalSaves ++
        if calcStats args ep = true ∧ acc ep > s.optimal_acc ∧ args.save = true
        then [ep] else [] := by
  unfold statsStep
  by_cases h2 : calcStats args ep = true <;>
    by_cases h3 : acc ep > s.optimal_acc <;>
      by_cases h4 : args.save = true <;> simp [h2, h3, h4]

theorem statsStep_periodicSaves (args : Args) (acc : Nat → ℚ) (ep : Nat) (s : LoopState) :
    (statsStep args acc ep s).periodicSaves = s.periodicSaves := by
  unfold statsStep
  by_cases h2 : calcStats args ep = true <;>
    by_cases h3 : acc ep > s.optimal_acc <;> simp [h2, h3]

theorem stepEpoch_optimal_acc (args : Args) (c : ℚ) (acc : Nat → ℚ) (ep : Nat)
    (s : LoopState) :
    (stepEpoch args c acc ep s).optimal_acc =
      if calcStats args ep = true ∧ acc ep > s.optimal_acc then acc ep
      else s.optimal_acc := by
  unfold stepEpoch
  rw [statsStep_optimal_acc, periodicSaveStep_optimal_acc]

theorem stepEpoch_optimalSaves (args : Args) (c : ℚ) (acc : Nat → ℚ) (ep : Nat)
    (s : LoopState) :
    (stepEpoch args c acc ep s).optimalSaves =
      s.optimalSaves ++
        if calcStats args ep = true ∧ acc ep > s.optimal_acc ∧ args.save = true
        then [ep] else [] := by
  unfold stepEpoch
  rw [statsStep_optimalSaves, periodicSaveStep_optimalSaves, periodicSaveStep_optimal_acc]

theorem stepEpoch_periodicSaves (args : Args) (c : ℚ) (acc : Nat → ℚ) (ep : Nat)
    (s : LoopState) :
    (stepEpoch args c acc ep s).periodicSaves =
      s.periodicSaves ++
        if ep % args.save_freq ≠ 0 ∧ args.save = true
        then [(ep, c * (ep : ℚ))] else [] := by
  unfold stepEpoch
  rw [statsStep_periodicSaves, periodicSaveStep_periodicSaves]

theorem stepEpoch_optimalSaves_grows (args : Args) (c : ℚ) (acc : Nat → ℚ) (ep : Nat)
    (s : LoopState) :
    s.optimalSaves <+: (stepEpoch args c acc ep s).optimalSaves := by
  rw [stepEpoch_optimalSaves]
  exact List.prefix_append _ _

theorem foldl_optimalSaves_grows (args : Args) (c : ℚ) (acc : Nat → ℚ) :
    ∀ (l : List Nat) (s : LoopState),
      s.optimalSaves <+:
        (l.foldl (fun u e => stepEpoch args c acc e u) s).optimalSaves := by
  intro l
  induction l with
  | nil => intro s; exact List.prefix_refl _
  | cons e rest ih =>
      intro s
      exact (stepEpoch_optimalSaves_grows args c acc e s).trans
        (ih (stepEpoch args c acc e s))

/-- Configuration used by concrete witnesses: 3 epochs, stats every epoch,
save frequency 100, saving on, no reload. -/
def argsA : Args := ⟨3, 1, 100, true, false⟩

/-- Strictly improving eval-accuracy sequence used by concrete witnesses. -/
def accStrict : Nat → ℚ := fun e => (e : ℚ)

/-- C3: when saving is enabled, the periodic epoch checkpoint (named by
epoch index and cumulative compute) is written after the train pass of
epoch `ep` exactly when `ep % save_freq` is nonzero, i.e. on every epoch
except multiples of `save_freq`. -/
theorem periodic_save_iff_not_multiple (args : Args) (c : ℚ) (acc : Nat → ℚ)
    (ep : Nat) (s : LoopState) (hsave : args.save = true) :
    (stepEpoch args c acc ep s).periodicSaves
        = s.periodicSaves ++ [(ep, c * (ep : ℚ))] ↔ ep % args.save_freq ≠ 0 := by
  rw [stepEpoch_periodicSaves]
  by_cases hmod : ep % args.save_freq = 0
  · rw [if_neg (fun hc => hc.1 hmod), List.append_nil]
    constructor
    · intro h
      have := congrArg List.length h
      simp at this
    · intro h
      exact absurd hmod h
  · simp [hmod, hsave]

theorem periodic_save_iff_not_multiple_witness :
    (stepEpoch argsA 1 accStrict 1 initState).periodicSaves
        = initState.periodicSaves ++ [(1, 1 * ((1 : Nat) : ℚ))] ↔
      1 % argsA.save_freq ≠ 0 :=
  periodic_save_iff_not_multiple argsA 1 accStrict 1 initState rfl

/-- C4: at an eval epoch, the best-accuracy record is updated (and, with
saving enabled, a dedicated optimal checkpoint written) exactly when the
current eval accuracy strictly exceeds the best so far; and the record
never decreases over any sequence of epochs. -/
theorem best_record_update_iff_and_monotone (args : Args) (c : ℚ) (acc : Nat → ℚ)
    (ep : Nat) (s : LoopState) (hcalc : calcStats args ep = true)
    (hsave : args.save = true) :
    ((stepEpoch args c acc ep s).optimalSaves ≠ s.optimalSaves ↔
        acc ep > s.optimal_acc) ∧
    ((stepEpoch args c acc ep s).optimal_acc =
      if acc ep > s.optimal_acc then acc ep else s.optimal_acc) ∧
    ∀ (l : List Nat) (t : LoopState),
      t.optimal_acc ≤ (l.foldl (fun u e => stepEpoch args c acc e u) t).optimal_acc := by
  refine ⟨?_, ?_, ?_⟩
  · rw [stepEpoch_optimalSaves]
    by_cases h3 : acc ep > s.optimal_acc
    · rw [if_pos ⟨hcalc, h3, hsave⟩]
      constructor
      · intro _
        exact h3
      · intro _ h
        have := congrArg List.length h
        simp at this
    · rw [if_neg (fun hc => h3 hc.2.1), List.append_nil]
      simp [h3]
  · rw [stepEpoch_optimal_acc]
    simp [hcalc]
  · intro l
    induction l with
    | nil => intro t; exact le_refl _
    | cons e rest ih =>
        intro t
        refine le_trans ?_ (ih (stepEpoch args c acc e t))
        rw [stepEpoch_optimal_acc]
        split
        · next h => exact le_of_lt h.2
        · exact le_refl _

theorem best_record_update_iff_and_monotone_witness :
    (stepEpoch argsA 1 accStrict 1 initState).optimalSaves ≠ initState.optimalSaves ↔
      accStrict 1 > initState.optimal_acc :=
  (best_record_update_iff_and_monotone argsA 1 accStrict 1 initState rfl rfl).1

theorem compute_entries_invariant (args : Args) (c : ℚ) (acc : Nat → ℚ) :
    ∀ (l : List Nat) (s : LoopState),
      (∀ pr ∈ s.periodicSaves, pr.2 = c * (pr.1 : ℚ)) →
      ∀ pr ∈ (l.foldl (fun u e => stepEpoch args c acc e u) s).periodicSaves,
        pr.2 = c * (pr.1 : ℚ) := by
  intro l
  induction l with
  | nil => intro s hs; exact hs
  | cons e rest ih =>
      intro s hs
      apply ih
      rw [stepEpoch_periodicSaves]
      intro pr hpr
      rcases List.mem_append.mp hpr with h | h
      · exact hs pr h
      · split at h
        · rw [List.mem_singleton.mp h]
        · cases h

/-- C8: every cumulative-compute annotation the loop writes on a periodic
checkpoint at epoch `ep` equals `compute_per_epoch * ep`, for any starting
epoch (linear accounting). -/
theorem compute_linear_accounting (args : Args) (c : ℚ) (acc : Nat → ℚ)
    (start_ep : Nat) :
    ∀ pr ∈ (runEpochs args c acc start_ep).periodicSaves,
      pr.2 = c * (pr.1 : ℚ) := by
  unfold runEpochs
  exact compute_entries_invariant args c acc _ initState (by simp [initState])

theorem compute_linear_accounting_witness :
    (((1 : Nat), (5 : ℚ))).2 = 5 * ((((1 : Nat), (5 : ℚ))).1 : ℚ) :=
  compute_linear_accounting argsA 5 accStrict 1 ((1 : Nat), (5 : ℚ)) (by
    show ((1 : Nat), (5 : ℚ)) ∈ (runEpochs argsA 5 accStrict 1).periodicSaves
    have e1 : epochRange 1 argsA.epochs = [1, 2] := rfl
    unfold runEpochs
    rw [e1]
    simp only [List.foldl_cons, List.foldl_nil]
    rw [stepEpoch_periodicSaves, stepEpoch_periodicSaves]
    norm_num [initState, argsA])

/-- C2 counterexample: with 3 configured epochs, eval cadence 1, saving on
and strictly improving eval accuracies, the loop neither runs 3 train
epochs nor writes 3 optimal checkpoints: `range(1, 3)` visits only epochs
1 and 2. -/
theorem epoch_count_off_by_one_cex :
    ¬((epochRange 1 argsA.epochs).length = 3 ∧
      (mainLoop argsA 1 accStrict).optimalSaves.length = 3) := by
  intro h
  have : (2 : Nat) = 3 := by
    calc (2 : Nat) = (epochRange 1 argsA.epochs).length := rfl
    _ = 3 := h.1
  simp at this

/-- C2 amended: the orchestrator runs the train pass once for each epoch
`1` through `N - 1` (so `N - 1` train epochs, not `N`), and the 3-epoch
scenario with eval cadence 1 and strictly improving eval accuracy produces
exactly 2 eval-time (optimal) checkpoint saves. -/
theorem epoch_count_amended (args : Args) (c : ℚ) (acc : Nat → ℚ)
    (hep : args.epochs = 3) (hcad : args.calculate_stats = 1)
    (hsave : args.save = true) (hmono : StrictMono acc) (hnn : 0 ≤ acc 1) :
    (∀ n : Nat, (epochRange 1 n).length = n - 1) ∧
    (mainLoop args c acc).optimalSaves.length = 2 := by
  constructor
  · intro n
    simp [epochRange]
  · have hrange : epochRange 1 args.epochs = [1, 2] := by rw [hep]; rfl
    unfold mainLoop runEpochs
    rw [hrange]
    simp only [List.foldl_cons, List.foldl_nil]
    have hc1 : calcStats args 1 = true := by simp [calcStats, hcad]
    have hc2 : calcStats args 2 = true := by simp [calcStats, hcad]
    have hacc1 : acc 1 > initState.optimal_acc := by
      have h0 : (-1 : ℚ) < 0 := by norm_num
      exact lt_of_lt_of_le h0 hnn
    have hacc1n : (-1 : ℚ) < acc 1 := hacc1
    have ho1 : (stepEpoch args c acc 1 initState).optimal_acc = acc 1 := by
      rw [stepEpoch_optimal_acc]
      simp [hc1, hacc1]
    have hs1 : (stepEpoch args c acc 1 initState).optimalSaves = [1] := by
      rw [stepEpoch_optimalSaves]
      simp [hc1, hacc1, hacc1n, hsave, initState]
    have hacc2 : acc 2 > (stepEpoch args c acc 1 initState).optimal_acc := by
      rw [ho1]
      exact hmono (by norm_num)
    have hs2 : (stepEpoch args c acc 2 (stepEpoch args c acc 1 initState)).optimalSaves
        = [1, 2] := by
      rw [stepEpoch_optimalSaves, hs1]
      simp [hc2, hacc2, hsave]
    rw [hs2]
    rfl

theorem epoch_count_amended_witness :
    (mainLoop argsA 1 accStrict).optimalSaves.length = 2 :=
  (epoch_count_amended argsA 1 accStrict rfl rfl rfl
    (by
      intro a b h
      simp only [accStrict]
      exact_mod_cast h)
    (by
      simp [accStrict])).2

theorem first_stats_epoch_saves_aux (args : Args) (c : ℚ) (acc : Nat → ℚ)
    (hsave : args.save = true) :
    ∀ (l : List Nat) (s : LoopState) (ep : Nat),
      l.find? (fun e => calcStats args e) = some ep →
      s.optimal_acc = -1 → 0 ≤ acc ep →
      ep ∈ (l.foldl (fun u e => stepEpoch args c acc e u) s).optimalSaves := by
  intro l
  induction l with
  | nil =>
      intro s ep hfind
      cases hfind
  | cons e rest ih =>
      intro s ep hfind hinv hnn
      by_cases hce : calcStats args e = true
      · rw [List.find?_cons_of_pos _ hce] at hfind
        obtain rfl : ep = e := by
          cases hfind
          rfl
        have hgt : acc ep > s.optimal_acc := by
          rw [hinv]
          exact lt_of_lt_of_le (by norm_num) hnn
        have hmem : ep ∈ (stepEpoch args c acc ep s).optimalSaves := by
          rw [stepEpoch_optimalSaves, if_pos ⟨hce, hgt, hsave⟩]
          exact List.mem_append_right _ (List.mem_singleton_self ep)
        exact (foldl_optimalSaves_grows args c acc rest
          (stepEpoch args c acc ep s)).subset hmem
      · rw [List.find?_cons_of_neg _ hce] at hfind
        have hinv2 : (stepEpoch args c acc e s).optimal_acc = -1 := by
          rw [stepEpoch_optimal_acc]
          simp [hce, hinv]
        exact ih (stepEpoch args c acc e s) ep hfind hinv2 hnn

/-- C9: the best-accuracy record starts at -1, so the first epoch on which
stats are calculated passes the strict-improvement test for every
(non-negative) eval accuracy, including 0; with saving enabled an optimal
checkpoint is therefore written at that epoch. -/
theorem first_eval_always_saves (args : Args) (c : ℚ) (acc : Nat → ℚ) (ep : Nat)
    (hsave : args.save = true)
    (hfind : (epochRange 1 args.epochs).find? (fun e => calcStats args e) = some ep)
    (hnn : 0 ≤ acc ep) :
    ep ∈ (mainLoop args c acc).optimalSaves := by
  unfold mainLoop runEpochs
  exact first_stats_epoch_saves_aux args c acc hsave _ initState ep hfind rfl hnn

theorem first_eval_always_saves_witness :
    1 ∈ (mainLoop argsA 1 accStrict).optimalSaves :=
  first_eval_always_saves argsA 1 accStrict 1 rfl (by decide) (by simp [accStrict])

/-- C5: with the reload flag set and a missing or undeserializable
checkpoint, the orchestrator prints the informational message and
continues from the freshly initialized parameters (it does not abort);
the parameters differ from the fresh initialization only when the load
succeeded. -/
theorem reload_failure_recovers {P : Type} (ck : Option P) (freshInit : P) :
    reloadStep true (none : Option P) freshInit = (freshInit, 1, true) ∧
    (∀ p : P, reloadStep true (some p) freshInit = (p, 1, false)) ∧
    ((reloadStep true ck freshInit).1 ≠ freshInit → ∃ p, ck = some p) := by
  refine ⟨rfl, fun p => rfl, ?_⟩
  cases ck with
  | none =>
      intro h
      exact absurd rfl h
  | some p =>
      intro _
      exact ⟨p, rfl⟩

theorem reload_failure_recovers_witness :
    reloadStep true (none : Option Nat) 0 = (0, 1, true) :=
  (reload_failure_recovers (none : Option Nat) 0).1

/-- C10: the reload prologue never resumes the epoch counter: whatever the
reload flag and the load outcome, the starting epoch is 1, so the run
replays the full epoch range with the best-accuracy record freshly reset
to -1; only the model parameters come from the checkpoint. -/
theorem reload_never_resumes {P : Type} (r : Bool) (ck : Option P) (freshInit : P)
    (args : Args) (c : ℚ) (acc : Nat → ℚ) :
    (reloadStep r ck freshInit).2.1 = 1 ∧
    initState.optimal_acc = -1 ∧
    runEpochs args c acc (reloadStep r ck freshInit).2.1 = mainLoop args c acc := by
  have h1 : (reloadStep r ck freshInit).2.1 = 1 := by
    cases r <;> cases ck <;> rfl
  exact ⟨h1, rfl, by rw [h1]; rfl⟩

theorem reload_never_resumes_witness :
    (reloadStep true (some 7) (0 : Nat)).2.1 = 1 :=
  (reload_never_resumes true (some 7) (0 : Nat) argsA 1 accStrict).1

/-- Aggregated per-batch metric contributions: top-1 accuracy, top-5
accuracy, loss value and sample count (the `AverageMeter.update` weights of
`train.py` lines 52-53, 60 and 86-89). -/
structure BatchMetrics where
  acc : ℚ
  top5 : ℚ
  loss : ℚ
  n : Nat
  deriving DecidableEq

/-- The external collaborators consumed by a pass: channel averaging and
flattening (`train.py` lines 30-33, 81-83), the model forward pass
(parameterized by the current parameters `P`), the loss function
(`CrossEntropyLoss`), the accuracy scorer (`topk_acc`, whose optional
third argument is the secondary mixup label tensor, `none` for Python's
`None`), and the batch-size reading `ims.shape[0]`. -/
structure PassCfg (P Img Feat Pred Lbl : Type) where
  channel_avg : Bool
  chMean : Img → Img
  reshapeFlat : Img → Feat
  modelFwd : P → Feat → Pred
  lossFn : Pred → Lbl → ℚ
  scorer : Pred → Lbl → Option Lbl → ℚ × ℚ
  batchSize : Img → Nat

/-- The shared forward path of both passes (`train.py` lines 30-34 and
81-84): optional channel averaging, flatten, model forward. -/
def forwardBatch {P Img Feat Pred Lbl : Type} (cfg : PassCfg P Img Feat Pred Lbl)
    (p : P) (ims : Img) : Pred :=
  let ims1 := if cfg.channel_avg then cfg.chMean ims else ims
  cfg.modelFwd p (cfg.reshapeFlat ims1)

/-- Metric contribution of one batch of the eval pass (`test`,
`train.py` lines 80-89): plain single-label loss `loss_fn(preds, targs)`
and accuracy scoring `topk_acc(preds, targs, k=5, avg=True)` with no
secondary labels. -/
def testBatch {P Img Feat Pred Lbl : Type} (cfg : PassCfg P Img Feat Pred Lbl)
    (p : P) (b : Img × Lbl) : BatchMetrics :=
  let preds := forwardBatch cfg p b.1
  let scores := cfg.scorer preds b.2 none
  ⟨scores.1, scores.2, cfg.lossFn preds b.2, cfg.batchSize b.1⟩

/-- Metric contribution of one batch of the train pass in the
no-mixup branch (`train`, `train.py` lines 47-51): plain loss
`loss_fn(preds, targs)` and scoring with `targs_perm = None`. -/
def trainBatchPlain {P Img Feat Pred Lbl : Type} (cfg : PassCfg P Img Feat Pred Lbl)
    (p : P) (b : Img × Lbl) : BatchMetrics :=
  let preds := forwardBatch cfg p b.1
  let scores := cfg.scorer preds b.2 none
  ⟨scores.1, scores.2, cfg.lossFn preds b.2, cfg.batchSize b.1⟩

/-- The eval pass (`test`, `train.py` lines 74-98): decorated with
`@torch.no_grad()`, it iterates the loader collecting metric
contributions; it calls no optimizer or scheduler method and never writes
to the model parameters, so those three pieces of state pass through
unchanged. -/
def testPass {P O S Img Feat Pred Lbl : Type} (cfg : PassCfg P Img Feat Pred Lbl)
    (p : P) (optSt : O) (schedSt : S) (batches : List (Img × Lbl)) :
    List BatchMetrics × P × O × S :=
  (batches.map (testBatch cfg p), p, optSt, schedSt)

/-- C6: the eval pass performs the same forward and metric computation as
the train pass's single-label path, with no mixup blending — per batch the
loss is the plain single-label loss and the scorer receives no secondary
labels — and it leaves model parameters and optimizer/scheduler state
unchanged. -/
theorem eval_pass_plain_and_frame {P O S Img Feat Pred Lbl : Type}
    (cfg : PassCfg P Img Feat Pred Lbl) (p : P) (optSt : O) (schedSt : S)
    (batches : List (Img × Lbl)) :
    (testPass cfg p optSt schedSt batches).2 = (p, optSt, schedSt) ∧
    (testPass cfg p optSt schedSt batches).1 = batches.map (trainBatchPlain cfg p) ∧
    ∀ b ∈ batches,
      (testBatch cfg p b).loss = cfg.lossFn (forwardBatch cfg p b.1) b.2 ∧
      (testBatch cfg p b).acc = (cfg.scorer (forwardBatch cfg p b.1) b.2 none).1 := by
  refine ⟨rfl, rfl, ?_⟩
  intro b _
  exact ⟨rfl, rfl⟩

/-- Concrete collaborator instance used by the C6 witness. -/
def cfgW : PassCfg Nat Nat Nat Nat Nat where
  channel_avg := false
  chMean := id
  reshapeFlat := id
  modelFwd := fun p f => p + f
  lossFn := fun pr l => (pr : ℚ) - (l : ℚ)
  scorer := fun _ _ _ => (1, 1)
  batchSize := fun _ => 1

theorem eval_pass_plain_and_frame_witness :
    (testPass cfgW 4 10 20 [(1, 2)]).2 = (4, 10, 20) ∧
    (testBatch cfgW 4 (1, 2)).loss = cfgW.lossFn (forwardBatch cfgW 4 1) 2 :=
  ⟨(eval_pass_plain_and_frame cfgW 4 10 20 [(1, 2)]).1,
   ((eval_pass_plain_and_frame cfgW 4 10 20 [(1, 2)]).2.2 (1, 2)
     (List.mem_singleton_self _)).1⟩

end ScalingMLPs
